import Mathlib

/-! # Aquarius asset registry — shallow embedding

This file embeds the DDO (DID document) data model and the mutation handlers of
`aquarius/app/assets.py` as executable Lean definitions, and proves the frozen
claims about them.

Modelling conventions:
* Python dicts whose keys the handlers read are modelled as structures; a field
  the code may find absent (raising `KeyError`) is an `Option`.  Only the keys
  the handlers read or write are modelled; extra payload keys are carried
  through unchanged by the code and are irrelevant to every claim.
* A handler returns a `Resp` (the HTTP response) together with the new store.
  An uncaught or caught-and-rephrased Python exception is `Resp.serverError`
  (HTTP 500).
* Python floats are modelled as rationals (`Rat`); the handlers only copy or
  round them, and no settled claim depends on binary64 representation.
  Python `bool` values are modelled by a constructor distinct from `int`
  (the `isinstance(…, int)` subtlety for `True`/`False` is not load-bearing
  for any claim).
* External collaborators (plecos schema validation, `Web3.isAddress`, signature
  recovery) are fields of the request environment `Env`.
-/

/-- A dynamically typed JSON scalar value, as carried inside link / file /
price entries of the payloads. -/
inductive JVal where
  | str (s : String)
  | int (n : Int)
  | num (q : Rat)
  | bool (b : Bool)
  | null
deriving DecidableEq, Repr

/-- A JSON object with scalar values (a link entry, a file entry, a
servicePrices entry), as an association list preserving insertion order. -/
abbrev JObj := List (String × JVal)

/-- `obj[key]` as an `Option`: `none` models a Python `KeyError`. -/
def jlookup (o : JObj) (k : String) : Option JVal :=
  (o.find? (fun p => p.1 == k)).map (fun p => p.2)

/-- `attributes.curation` of a metadata service (rating / numVotes / isListed). -/
structure Curation where
  rating : Rat
  numVotes : Int
  isListed : Bool
deriving DecidableEq, Repr

/-- `attributes.additionalInformation` of a metadata service (the keys the
handlers touch: description and links). -/
structure AddInfo where
  description : Option String
  links : Option (List JObj)
deriving DecidableEq, Repr

/-- `attributes.main` of a metadata service (the keys the handlers touch). -/
structure MainMeta where
  name : Option String
  dateCreated : Option String
  datePublished : Option String
  price : Option String
  files : Option (List JObj)
deriving DecidableEq, Repr

/-- `attributes` of a service. -/
structure Attributes where
  main : Option MainMeta
  curation : Option Curation
  additionalInformation : Option AddInfo
deriving DecidableEq, Repr

/-- One entry of the `service` list. -/
structure Service where
  type : String
  index : Int
  attributes : Option Attributes
deriving DecidableEq, Repr

/-- One entry of `publicKey`; `publicKey[0].owner` is the document owner. -/
structure PubKey where
  owner : String
deriving DecidableEq, Repr

/-- The value found under the `accesssWhiteList` key: the code checks
`isinstance(..., list)`, so a present-but-not-a-list value is representable. -/
inductive AWLField where
  | notAList
  | aList (l : List String)
deriving DecidableEq, Repr

/-- A stored DDO record (the fields the handlers read or write).  `created` and
`updated` are ISO-8601 timestamp strings.  `accesssWhiteList` is `none` when
the key is absent from the stored record (possible after a full update whose
payload lacked it). -/
structure Doc where
  id : String
  created : String
  updated : String
  publicKey : List PubKey
  service : List Service
  accesssWhiteList : Option AWLField
deriving DecidableEq, Repr

/-! ## Timestamps

`DATETIME_FORMAT = '%Y-%m-%dT%H:%M:%SZ'`.  `format_timestamp` parses with
`datetime.strptime` and re-renders with `isoformat() + 'Z'`; parsing follows
CPython's `_strptime` regexes: `%Y` is exactly four digits, the other fields
accept one or two digits within their ranges, and `datetime` then validates the
day of month.  A failed parse is a `ValueError`, modelled as `none`. -/

structure DateTime where
  year : Nat
  month : Nat
  day : Nat
  hour : Nat
  minute : Nat
  second : Nat
deriving DecidableEq, Repr

def digitVal (c : Char) : Nat := c.toNat - 48

/-- Maximal run of leading digits, as digit values, with the rest. -/
def takeDigits : List Char → List Nat × List Char
  | [] => ([], [])
  | c :: rest =>
    if c.isDigit then
      let (ds, r) := takeDigits (rest)
      (digitVal c :: ds, r)
    else ([], c :: rest)

def digitsVal (ds : List Nat) : Nat := ds.foldl (fun a d => a * 10 + d) 0

/-- `%Y`: exactly four digits, year at least 1 (`datetime.MINYEAR`). -/
def parseYear (cs : List Char) : Option (Nat × List Char) :=
  let (ds, rest) := takeDigits cs
  if ds.length = 4 then
    let v := digitsVal ds
    if 1 ≤ v then some (v, rest) else none
  else none

/-- A one-or-two-digit field constrained to `[lo, hi]` (the CPython `_strptime`
regexes for `%m`, `%d`, `%H`, `%M`, `%S`). -/
def parseNum2 (lo hi : Nat) (cs : List Char) : Option (Nat × List Char) :=
  let (ds, rest) := takeDigits cs
  if ds.length = 1 ∨ ds.length = 2 then
    let v := digitsVal ds
    if lo ≤ v ∧ v ≤ hi then some (v, rest) else none
  else none

def expectChar (c : Char) : List Char → Option (List Char)
  | x :: rest => if x = c then some rest else none
  | [] => none

def isLeap (y : Nat) : Bool := (y % 4 == 0 && y % 100 != 0) || y % 400 == 0

def daysInMonth (y m : Nat) : Nat :=
  if m = 2 then (if isLeap y then 29 else 28)
  else if m = 4 ∨ m = 6 ∨ m = 9 ∨ m = 11 then 30
  else 31

/-- `datetime.strptime(s, '%Y-%m-%dT%H:%M:%SZ')`, as an `Option`. -/
def parseTimestamp (s : String) : Option DateTime := do
  let cs := s.data
  let (y, cs) ← parseYear cs
  let cs ← expectChar '-' cs
  let (mo, cs) ← parseNum2 1 12 cs
  let cs ← expectChar '-' cs
  let (d, cs) ← parseNum2 1 31 cs
  let cs ← expectChar 'T' cs
  let (h, cs) ← parseNum2 0 23 cs
  let cs ← expectChar ':' cs
  let (mi, cs) ← parseNum2 0 59 cs
  let cs ← expectChar ':' cs
  let (sec, cs) ← parseNum2 0 59 cs
  let cs ← expectChar 'Z' cs
  match cs with
  | [] => if d ≤ daysInMonth y mo then some ⟨y, mo, d, h, mi, sec⟩ else none
  | _ => none

def pad2 (n : Nat) : String := if n < 10 then "0" ++ toString n else toString n

def pad4 (n : Nat) : String :=
  if n < 10 then "000" ++ toString n
  else if n < 100 then "00" ++ toString n
  else if n < 1000 then "0" ++ toString n
  else toString n

/-- `datetime.isoformat() + 'Z'` at second precision. -/
def renderTimestamp (dt : DateTime) : String :=
  pad4 dt.year ++ "-" ++ pad2 dt.month ++ "-" ++ pad2 dt.day ++ "T" ++
    pad2 dt.hour ++ ":" ++ pad2 dt.minute ++ ":" ++ pad2 dt.second ++ "Z"

/-- `format_timestamp`: parse then re-render; `none` models the `ValueError`. -/
def format_timestamp (s : String) : Option String :=
  (parseTimestamp s).map renderTimestamp

/-- `validate_date_format` succeeds iff `strptime` accepts the string. -/
def validate_date_format (s : String) : Bool := (parseTimestamp s).isSome

/-! ## Service helpers -/

/-- `_get_metadata(services)`: the first service whose type is `metadata`
(`None` when there is none). -/
def _get_metadata (services : List Service) : Option Service :=
  services.find? (fun s => s.type == "metadata")

/-- `_reorder_services(services)`: first loop appends every metadata-typed
service in order, second loop appends every other service in order. -/
def _reorder_services (services : List Service) : List Service :=
  services.filter (fun s => s.type == "metadata") ++
    services.filter (fun s => s.type != "metadata")

/-- `check_no_urls_in_files(main, ...)` succeeds (returns `(None, None)`) iff no
file entry carries a `url` key. -/
def check_no_urls_in_files (main : MainMeta) : Bool :=
  match main.files with
  | none => true
  | some files => files.all (fun f => (jlookup f "url").isNone)

/-! ## Environment, store, responses -/

/-- Per-request environment: the request origin, the clock, the configuration,
and the external collaborators (signature recovery, the plecos remote schema
validator, `Web3.isAddress`) taken as oracles. -/
structure Env where
  remoteAddr : String
  now : String
  allowFreeAssetsOnly : Bool
  recoverSigner : String → String → Option String
  allowedUpdaters : List String
  isValidRemote : Attributes → Bool
  isAddress : String → Bool

/-- Modelled from the spec: the `DocumentStore` (§6) behind `Dao`
(`aquarius/app/dao.py` is not among the sources).  `get` returns the record
keyed by the DID or `None`; `put` replaces the record under that key or inserts
it.  The compare-and-swap precondition of §5 is an intended hardening the
original behaviour lacks, so plain replace semantics are modelled. -/
abbrev Store := List (String × Doc)

def Store.get (st : Store) (did : String) : Option Doc :=
  (st.find? (fun p => p.1 == did)).map (fun p => p.2)

def Store.put : Store → String → Doc → Store
  | [], did, d => [(did, d)]
  | p :: rest, did, d =>
    if p.1 == did then (did, d) :: rest else p :: Store.put rest did d

/-- An HTTP response of a handler.  `created`/`okDoc` carry the serialized
record; message bodies distinguish the return sites of the Python code. -/
inductive Resp where
  | created (d : Doc)
  | okDoc (d : Doc)
  | ok (msg : String)
  | badRequest (msg : String)
  | unauthorized (msg : String)
  | notFound (msg : String)
  | serverError
deriving DecidableEq, Repr

/-- The HTTP status code of a response. -/
def Resp.code : Resp → Nat
  | .created _ => 201
  | .okDoc _ => 200
  | .ok _ => 200
  | .badRequest _ => 400
  | .unauthorized _ => 401
  | .notFound _ => 404
  | .serverError => 500

/-! ## Authorization

`_can_update_did`, `_can_update_did_from_allowed_updaters` and
`compare_eth_addresses` live in `aquarius/app/util.py`, which is not among the
sources, so they are modelled from the spec. -/

def strLower (s : String) : String := String.mk (s.data.map Char.toLower)

/-- Modelled from the spec: `compare_eth_addresses` (AddressCodec
`addressesEqual`, §4.1) compares blockchain addresses case-insensitively. -/
def compare_eth_addresses (a b : String) : Bool := strLower a == strLower b

/-- Modelled from the spec: `_can_update_did` (`authorizeAsOwner`, §4.4)
recovers the signer from the submitted `updated` string and `signature` and
authorizes iff the signer equals `publicKey[0].owner` case-insensitively. -/
def _can_update_did (env : Env) (record : Doc) (updated signature : String) : Bool :=
  match env.recoverSigner updated signature with
  | none => false
  | some signer =>
    match record.publicKey.head? with
    | none => false
    | some pk => compare_eth_addresses signer pk.owner

/-- Modelled from the spec: `_can_update_did_from_allowed_updaters`
(`authorizeAsAllowedUpdater`, §4.4) authorizes iff the recovered signer is a
member of the configured allow-list of updater addresses. -/
def _can_update_did_from_allowed_updaters (env : Env) (_record : Doc)
    (updated signature : String) : Bool :=
  match env.recoverSigner updated signature with
  | none => false
  | some signer => env.allowedUpdaters.any (fun a => compare_eth_addresses signer a)

/-! ## Create (`register`) and FullUpdate (`update`) -/

/-- The JSON body of a Create / FullUpdate request.  `@context`,
`authentication` and `proof` are only tested for presence, so they are
presence flags; the other required keys are `Option`s ( `none` = key absent). -/
structure DDOPayload where
  hasContext : Bool
  hasAuthentication : Bool
  hasProof : Bool
  id : Option String
  created : Option String
  publicKey : Option (List PubKey)
  service : Option (List Service)
  accesssWhiteList : Option AWLField
deriving Repr

def reqMsg : String := "required attribute missing"
def urlsMsg : String := "url is not allowed in files"
def dateMsg : String := "Incorrect data format"
def priceMsg : String := "Priced assets are not supported in this marketplace"
def schemaMsg : String := "schema errors"
def noRightsMsg : String := "You have no rights"
def notAllowedMsg : String := "Not allowed to update this DID"

/-- The `allow_free_assets_only` gate: reads `main['price']` (a `KeyError` if
absent) and rejects a non-zero price. -/
def registerPriceGate (env : Env) (m : MainMeta) : Except Resp Unit :=
  if env.allowFreeAssetsOnly then
    match m.price with
    | none => .error .serverError
    | some p => if p ≠ "0" then .error (.badRequest priceMsg) else .ok ()
  else .ok ()

def registerServiceDates (env : Env) (s : Service) (attrs : Attributes)
    (m : MainMeta) : Except Resp Service :=
  match m.dateCreated with
  | none => .error .serverError
  | some dc =>
    match format_timestamp dc with
    | none => .error .serverError
    | some dcN =>
      .ok { s with attributes := some { attrs with
        main := some { m with dateCreated := some dcN,
                              datePublished := some env.now },
        curation := some { rating := 0, numVotes := 0, isListed := true } } }

/-- The body of `register`'s per-service loop for one service: for a
metadata-typed service, the free-assets price gate, then normalization of
`main.dateCreated`, `main.datePublished := get_timestamp()` and the fresh
curation `{rating: 0.0, numVotes: 0, isListed: True}`.  A missing key is a
`KeyError` escaping the handler (`serverError`), a bad `dateCreated` is an
uncaught `ValueError`. -/
def registerService (env : Env) (s : Service) : Except Resp Service :=
  if s.type == "metadata" then
    match s.attributes with
    | none => .error .serverError
    | some attrs =>
      match attrs.main with
      | none => .error .serverError
      | some m =>
        match registerPriceGate env m with
        | .error r => .error r
        | .ok _ => registerServiceDates env s attrs m
  else .ok s

def registerServices (env : Env) : List Service → Except Resp (List Service)
  | [] => .ok []
  | s :: rest =>
    match registerService env s with
    | .error r => .error r
    | .ok s' =>
      match registerServices env rest with
      | .error r => .error r
      | .ok rest' => .ok (s' :: rest')

/-- `register` up to (but not including) the `dao.register` call: the required
attribute checks, `check_no_urls_in_files` on the first metadata service,
`validate_date_format`, the construction of `_record`, and the remote schema
validation.  An `error` is the response of a non-created exit; no exit before
the store write mutates the store. -/
def registerCore (env : Env) (data : DDOPayload) : Except Resp Doc :=
  if ¬ data.hasContext then .error (.badRequest reqMsg) else
  match data.created with
  | none => .error (.badRequest reqMsg)
  | some created =>
  match data.id with
  | none => .error (.badRequest reqMsg)
  | some did =>
  match data.publicKey with
  | none => .error (.badRequest reqMsg)
  | some pk =>
  if ¬ data.hasAuthentication then .error (.badRequest reqMsg) else
  if ¬ data.hasProof then .error (.badRequest reqMsg) else
  match data.service with
  | none => .error (.badRequest reqMsg)
  | some services =>
  match _get_metadata services with
  | none => .error .serverError
  | some ms0 =>
  match ms0.attributes with
  | none => .error .serverError
  | some a0 =>
  match a0.main with
  | none => .error .serverError
  | some m0 =>
  if ¬ check_no_urls_in_files m0 then .error (.badRequest urlsMsg) else
  match format_timestamp created with
  | none => .error (.badRequest dateMsg)
  | some createdN =>
  let awl : List String :=
    match data.accesssWhiteList with
    | none => []
    | some .notAList => []
    | some (.aList l) => l
  match registerServices env services with
  | .error r => .error r
  | .ok services1 =>
  let services2 := _reorder_services services1
  match _get_metadata services2 with
  | none => .error .serverError
  | some msR =>
  match msR.attributes with
  | none => .error .serverError
  | some attrsR =>
  if ¬ env.isValidRemote attrsR then .error (.badRequest schemaMsg) else
  .ok { id := did, created := createdN, updated := createdN, publicKey := pk,
        service := services2, accesssWhiteList := some (.aList awl) }

/-- `POST /assets/ddo` (`register`): build the record and persist it under the
payload's `id`.  Note there is no pre-existence check. -/
def register (env : Env) (data : DDOPayload) (store : Store) : Resp × Store :=
  match registerCore env data with
  | .error r => (r, store)
  | .ok rec => (.created rec, store.put rec.id rec)

/-- The normalization applied through `services['metadata']` aliasing in
`update`: `main.dateCreated` and `main.datePublished` are both re-parsed with
`format_timestamp` (so FullUpdate requires a well-formed `datePublished` in the
payload, unlike Create). -/
def normalizeMainDates (s : Service) : Except Resp Service :=
  match s.attributes with
  | none => .error .serverError
  | some attrs =>
    match attrs.main with
    | none => .error .serverError
    | some m =>
      match m.dateCreated with
      | none => .error .serverError
      | some dc =>
        match format_timestamp dc with
        | none => .error .serverError
        | some dcN =>
          match m.datePublished with
          | none => .error .serverError
          | some dp =>
            match format_timestamp dp with
            | none => .error .serverError
            | some dpN =>
              .ok { s with attributes := some { attrs with
                main := some { m with dateCreated := some dcN,
                                      datePublished := some dpN } } }

/-- Apply `normalizeMainDates` to the last metadata-typed service of the list
(`services = {s['type']: s for s in ...}` keeps the last service per type); the
returned flag records whether one was found (`False` models the `KeyError` on
`services['metadata']`). -/
def updateLastMetaE : List Service → Except Resp (List Service × Bool)
  | [] => .ok ([], false)
  | s :: rest =>
    match updateLastMetaE rest with
    | .error r => .error r
    | .ok (rest', found) =>
      if found then .ok (s :: rest', true)
      else if s.type == "metadata" then
        match normalizeMainDates s with
        | .error r => .error r
        | .ok s' => .ok (s' :: rest', true)
      else .ok (s :: rest', false)

/-- `update` from the required-attribute checks up to (but not including) the
store interaction: validations, `_record` construction (`created` and `updated`
both set to the normalized payload `created`), reordering, last-metadata date
normalization and the remote schema validation. -/
def updateCore (env : Env) (data : DDOPayload) : Except Resp Doc :=
  if ¬ data.hasContext then .error (.badRequest reqMsg) else
  match data.created with
  | none => .error (.badRequest reqMsg)
  | some created =>
  match data.id with
  | none => .error (.badRequest reqMsg)
  | some did =>
  match data.publicKey with
  | none => .error (.badRequest reqMsg)
  | some pk =>
  if ¬ data.hasAuthentication then .error (.badRequest reqMsg) else
  if ¬ data.hasProof then .error (.badRequest reqMsg) else
  match data.service with
  | none => .error (.badRequest reqMsg)
  | some services =>
  match _get_metadata services with
  | none => .error .serverError
  | some ms0 =>
  match ms0.attributes with
  | none => .error .serverError
  | some a0 =>
  match a0.main with
  | none => .error .serverError
  | some m0 =>
  if ¬ check_no_urls_in_files m0 then .error (.badRequest urlsMsg) else
  match format_timestamp created with
  | none => .error (.badRequest dateMsg)
  | some createdN =>
  match updateLastMetaE (_reorder_services services) with
  | .error r => .error r
  | .ok (services3, found) =>
  if ¬ found then .error .serverError else
  match _get_metadata services3 with
  | none => .error .serverError
  | some msR =>
  match msR.attributes with
  | none => .error .serverError
  | some attrsR =>
  if ¬ env.isValidRemote attrsR then .error (.badRequest schemaMsg) else
  .ok { id := did, created := createdN, updated := createdN, publicKey := pk,
        service := services3, accesssWhiteList := data.accesssWhiteList }

/-- The price gate of `update`'s registered branch; the key reads happen inside
the `try`, so a missing key is caught and rephrased as a 500. -/
def updatePriceCheck (env : Env) : List Service → Except Resp Unit
  | [] => .ok ()
  | s :: rest =>
    if s.type == "metadata" then
      if env.allowFreeAssetsOnly then
        match s.attributes with
        | none => .error .serverError
        | some attrs =>
          match attrs.main with
          | none => .error .serverError
          | some m =>
            match m.price with
            | none => .error .serverError
            | some p =>
              if p ≠ "0" then .error (.badRequest priceMsg)
              else updatePriceCheck env rest
      else updatePriceCheck env rest
    else updatePriceCheck env rest

/-- `PUT /assets/ddo/<did>` (`update`, FullUpdate): gated only by the
remote-address check; if the DID is unregistered it falls back to `register()`
(whose response is discarded — only an exception, not an error response, stops
the 201) and otherwise re-checks prices and persists under the URL `did`. -/
def update (env : Env) (did : String) (data : DDOPayload) (store : Store) :
    Resp × Store :=
  if env.remoteAddr ≠ "127.0.0.1" ∧ env.remoteAddr ≠ "localhost" then
    (.unauthorized noRightsMsg, store)
  else
    match updateCore env data with
    | .error r => (r, store)
    | .ok rec =>
      match store.get did with
      | none =>
        let rs := register env data store
        match rs.1 with
        | .serverError => (.serverError, rs.2)
        | _ => (.created rec, rs.2)
      | some _ =>
        match updatePriceCheck env rec.service with
        | .error r => (r, store)
        | .ok _ => (.okDoc rec, store.put did rec)

/-! ## TransferOwnership -/

structure TransferReq where
  signature : Option String
  updated : Option String
  newOwner : Option String
deriving Repr

/-- `PUT /assets/ddo/owner/update/<did>` (`transfer_ownership`). -/
def transfer_ownership (env : Env) (did : String) (data : TransferReq)
    (store : Store) : Resp × Store :=
  match data.signature, data.updated, data.newOwner with
  | some sig, some upd, some newOwner =>
    if ¬ env.isAddress newOwner then
      (.badRequest "New owner is not a valid address", store)
    else
      match store.get did with
      | none => (.notFound "Cannot find did", store)
      | some rec =>
        if ¬ _can_update_did env rec upd sig then
          (.unauthorized notAllowedMsg, store)
        else
          match rec.publicKey.head? with
          | none => (.serverError, store)
          | some pk0 =>
            if compare_eth_addresses pk0.owner newOwner then
              (.badRequest "New owner must be different than owner", store)
            else
              let rec' := { rec with
                publicKey := { owner := newOwner } :: rec.publicKey.tail,
                updated := env.now }
              (.ok "Asset successfully transferred", store.put did rec')
  | _, _, _ => (.badRequest reqMsg, store)

/-! ## RateUpdate -/

structure RatingReq where
  signature : Option String
  updated : Option String
  rating : Option JVal
  numVotes : Option JVal
deriving Repr

/-- `isinstance(x, float) or isinstance(x, int)` for the submitted rating. -/
def JVal.isNumOrInt : JVal → Bool
  | .num _ => true
  | .int _ => true
  | _ => false

def JVal.toRat : JVal → Rat
  | .num q => q
  | .int n => (n : Rat)
  | _ => 0

/-- Round half to even on rationals — the decimal semantics of Python's
`round`.  (Actual Python floats are binary64, so `round` acts on the binary
value; no settled claim depends on this difference.) -/
def roundHalfEven (q : Rat) : Int :=
  let f := q.floor
  let frac := q - (f : Rat)
  if frac < 1 / 2 then f
  else if frac > 1 / 2 then f + 1
  else if f % 2 = 0 then f else f + 1

/-- `round(x, 1)`. -/
def pyRound1 (q : Rat) : Rat := (roundHalfEven (q * 10) : Rat) / 10

/-- The per-service loop of `update_ratings`: every metadata-typed service gets
`curation.rating := round(rating, 1)` and `curation.numVotes := numVotes`; a
missing `attributes`/`curation` key is a `KeyError` caught as a 500. -/
def applyRatingService (r : Rat) (nv : Int) (s : Service) : Except Resp Service :=
  if s.type == "metadata" then
    match s.attributes with
    | none => .error .serverError
    | some attrs =>
      match attrs.curation with
      | none => .error .serverError
      | some cur =>
        .ok { s with attributes := some { attrs with
          curation := some { cur with rating := r, numVotes := nv } } }
  else .ok s

def applyRating (r : Rat) (nv : Int) : List Service → Except Resp (List Service)
  | [] => .ok []
  | s :: rest =>
    match applyRatingService r nv s with
    | .error e => .error e
    | .ok s' =>
      match applyRating r nv rest with
      | .error e => .error e
      | .ok rest' => .ok (s' :: rest')

/-- `PUT /assets/ddo/ratings/update/<did>` (`update_ratings`): gated by the
allowed-updaters predicate; stores the submitted `numVotes` unconditionally. -/
def update_ratings (env : Env) (did : String) (data : RatingReq)
    (store : Store) : Resp × Store :=
  match data.signature, data.updated, data.rating, data.numVotes with
  | some sig, some upd, some rv, some nvv =>
    if ¬ rv.isNumOrInt then (.badRequest "Rating is not float", store)
    else
      match nvv with
      | .int nv =>
        match store.get did with
        | none => (.notFound "Cannot find did", store)
        | some rec =>
          if ¬ _can_update_did_from_allowed_updaters env rec upd sig then
            (.unauthorized notAllowedMsg, store)
          else
            match applyRating (pyRound1 rv.toRat) nv rec.service with
            | .error r => (r, store)
            | .ok svcs =>
              let rec' := { rec with updated := env.now, service := svcs }
              (.ok "Rating successfully updated", store.put did rec')
      | _ => (.badRequest "NumVotes is not int", store)
  | _, _, _, _ => (.badRequest reqMsg, store)

/-! ## WhitelistAdd / WhitelistRemove -/

structure WhitelistReq where
  signature : Option String
  updated : Option String
  address : Option String
deriving Repr

/-- `POST /assets/ddo/accesssWhiteList/<did>` (`add_access_white_list`):
refuses a duplicate with a 400 Conflict, otherwise appends the address and
stamps `updated = get_timestamp()`.  A stored record without a whitelist list
raises inside the `try` and is rephrased as a 500. -/
def add_access_white_list (env : Env) (did : String) (data : WhitelistReq)
    (store : Store) : Resp × Store :=
  match data.signature, data.updated, data.address with
  | some sig, some upd, some addr =>
    if ¬ env.isAddress addr then
      (.badRequest "Address is not a valid eth address", store)
    else
      match store.get did with
      | none => (.notFound "Cannot find did", store)
      | some rec =>
        if ¬ _can_update_did env rec upd sig then
          (.unauthorized notAllowedMsg, store)
        else
          match rec.accesssWhiteList with
          | none => (.serverError, store)
          | some .notAList => (.serverError, store)
          | some (.aList wl) =>
            if wl.count addr > 0 then
              (.badRequest "Address already in list", store)
            else
              let rec' := { rec with
                accesssWhiteList := some (.aList (wl ++ [addr])),
                updated := env.now }
              (.ok "Address added.", store.put did rec')
  | _, _, _ => (.badRequest reqMsg, store)

/-- `DELETE /assets/ddo/accesssWhiteList/<did>` (`delete_access_white_list`):
refuses an absent address with a 400 Conflict, otherwise removes the first
occurrence (`list.remove`). -/
def delete_access_white_list (env : Env) (did : String) (data : WhitelistReq)
    (store : Store) : Resp × Store :=
  match data.signature, data.updated, data.address with
  | some sig, some upd, some addr =>
    if ¬ env.isAddress addr then
      (.badRequest "Address is not a valid eth address", store)
    else
      match store.get did with
      | none => (.notFound "Cannot find did", store)
      | some rec =>
        if ¬ _can_update_did env rec upd sig then
          (.unauthorized notAllowedMsg, store)
        else
          match rec.accesssWhiteList with
          | none => (.serverError, store)
          | some .notAList => (.serverError, store)
          | some (.aList wl) =>
            if wl.count addr < 1 then
              (.badRequest "Address not in list", store)
            else
              let rec' := { rec with
                accesssWhiteList := some (.aList (wl.erase addr)),
                updated := env.now }
              (.ok "Address removed.", store.put did rec')
  | _, _, _ => (.badRequest reqMsg, store)

/-! ## PartialMetadataUpdate (`update_metadata`) -/

def sampleMain : MainMeta :=
  { name := some "UK Weather information 2011",
    dateCreated := some "2019-01-01T00:00:00Z",
    datePublished := some "2019-01-02T00:00:00Z",
    price := some "0",
    files := some [] }

def sampleAI : AddInfo := { description := some "d", links := some [] }

def sampleAttrs : Attributes :=
  { main := some sampleMain,
    curation := some { rating := 1, numVotes := 5, isListed := true },
    additionalInformation := some sampleAI }

/-- A fully populated metadata service, as stored after a Create. -/
def sampleMeta : Service :=
  { type := "metadata", index := 2, attributes := some sampleAttrs }

/-- A non-metadata service. -/
def sampleAccess : Service :=
  { type := "access", index := 1, attributes := none }

/-- A registered document owned by `0xOwner`, with an empty whitelist. -/
def sampleDoc : Doc :=
  { id := "did:op:1", created := "2020-01-01T00:00:00Z",
    updated := "2021-01-01T00:00:00Z",
    publicKey := [{ owner := "0xOwner" }],
    service := [sampleMeta, sampleAccess],
    accesssWhiteList := some (.aList []) }

/-- An environment whose signature recovery always yields the sample owner. -/
def envOwner : Env :=
  { remoteAddr := "127.0.0.1", now := "2022-06-01T12:00:00Z",
    allowFreeAssetsOnly := false,
    recoverSigner := fun _ _ => some "0xOwner",
    allowedUpdaters := ["0xUpdater"],
    isValidRemote := fun _ => true,
    isAddress := fun s => s != "" }

/-- An environment whose signature recovery yields a non-owner address. -/
def envAttacker : Env := { envOwner with recoverSigner := fun _ _ => some "0xMallory" }

/-- An environment whose signature recovery yields the allowed updater. -/
def envUpdater : Env := { envOwner with recoverSigner := fun _ _ => some "0xUpdater" }

/-- The owner environment seen from a non-local remote address. -/
def envNonLocal : Env := { envOwner with remoteAddr := "203.0.113.7" }

/-- A valid Create / FullUpdate payload for `did:op:1`. -/
def samplePayload : DDOPayload :=
  { hasContext := true, hasAuthentication := true, hasProof := true,
    id := some "did:op:1", created := some "2020-01-01T00:00:00Z",
    publicKey := some [{ owner := "0xOwner" }],
    service := some [sampleAccess, sampleMeta],
    accesssWhiteList := none }

/-- The sample metadata service as `register` stores it: `datePublished`
stamped with the clock, curation reset. -/
def sampleMetaStored : Service :=
  { type := "metadata", index := 2,
    attributes := some
      { main := some
          { name := some "UK Weather information 2011",
            dateCreated := some "2019-01-01T00:00:00Z",
            datePublished := some "2022-06-01T12:00:00Z",
            price := some "0",
            files := some [] },
        curation := some { rating := 0, numVotes := 0, isListed := true },
        additionalInformation := some { description := some "d", links := some [] } } }

/-- The document `register envOwner samplePayload` produces. -/
def createdDoc : Doc :=
  { id := "did:op:1", created := "2020-01-01T00:00:00Z",
    updated := "2020-01-01T00:00:00Z",
    publicKey := [{ owner := "0xOwner" }],
    service := [sampleMetaStored, sampleAccess],
    accesssWhiteList := some (.aList []) }

/-- The document a FullUpdate of `samplePayload` over `sampleDoc` stores:
`updated` comes from the payload's `created`, and `accesssWhiteList` is the
payload's (absent). -/
def updatedDoc : Doc :=
  { id := "did:op:1", created := "2020-01-01T00:00:00Z",
    updated := "2020-01-01T00:00:00Z",
    publicKey := [{ owner := "0xOwner" }],
    service := [sampleMeta, sampleAccess],
    accesssWhiteList := none }

/-- A Create payload carrying a duplicated whitelist entry. -/
def dupPayload : DDOPayload :=
  { samplePayload with accesssWhiteList := some (.aList ["0xDup", "0xDup"]) }

/-- The document `register` stores for `dupPayload`: the duplicated whitelist
is stored verbatim. -/
def dupDoc : Doc :=
  { createdDoc with accesssWhiteList := some (.aList ["0xDup", "0xDup"]) }

/-- A WhitelistAdd request for `0xNew`. -/
def addReq : WhitelistReq :=
  { signature := some "sig", updated := some "2021-01-01T00:00:00Z",
    address := some "0xNew" }

/-- `sampleDoc` after the whitelist add of `0xNew`. -/
def whitelistedDoc : Doc :=
  { sampleDoc with
    accesssWhiteList := some (.aList ["0xNew"]),
    updated := "2022-06-01T12:00:00Z" }

/-- The sample metadata service after a RateUpdate with rating 1 and
numVotes 0 (the stored rating is written as the unreduced rounding term so
that equalities hold by `rfl` without normalizing rationals). -/
def ratedMeta : Service :=
  { type := "metadata", index := 2,
    attributes := some
      { main := some
          { name := some "UK Weather information 2011",
            dateCreated := some "2019-01-01T00:00:00Z",
            datePublished := some "2019-01-02T00:00:00Z",
            price := some "0",
            files := some [] },
        curation := some { rating := pyRound1 ((JVal.int 1).toRat),
                           numVotes := 0, isListed := true },
        additionalInformation := some { description := some "d", links := some [] } } }

/-- `sampleDoc` after that RateUpdate: numVotes went from 5 down to 0. -/
def ratedDoc : Doc :=
  { sampleDoc with
    updated := "2022-06-01T12:00:00Z",
    service := [ratedMeta, sampleAccess] }

/-- `sampleDoc` after a TransferOwnership to `0xNewOwner`. -/
def transferredDoc : Doc :=
  { sampleDoc with
    publicKey := [{ owner := "0xNewOwner" }],
    updated := "2022-06-01T12:00:00Z" }

/-- `sampleDoc` with only its metadata service. -/
def singleDoc : Doc := { sampleDoc with service := [sampleMeta] }

theorem Store.get_put (st : Store) (did : String) (d : Doc) :
    (st.put did d).get did = some d := by
  induction st with
  | nil => simp [Store.put, Store.get]
  | cons p rest ih =>
    by_cases h : p.1 == did
    · simp [Store.put, Store.get, h]
    · simpa [Store.put, Store.get, List.find?, h] using ih

theorem find?_append_of_all {α : Type} (p : α → Bool) (A B : List α)
    (hA : ∀ a ∈ A, p a = true) (hB : ∀ b ∈ B, ¬ p b = true) :
    (A ++ B).find? p = A.head? := by
  induction A with
  | nil => simpa using List.find?_eq_none.mpr hB
  | cons a A ih => simp [List.find?_cons, hA a (List.mem_cons_self a A)]

theorem reorder_services_head (l : List Service) (m : Service)
    (h : _get_metadata (_reorder_services l) = some m) :
    (_reorder_services l).head? = some m := by
  have hA : ∀ a ∈ l.filter (fun s => s.type == "metadata"),
      (fun s : Service => s.type == "metadata") a = true :=
    fun a ha => (List.mem_filter.mp ha).2
  have hB : ∀ b ∈ l.filter (fun s => s.type != "metadata"),
      ¬ ((fun s : Service => s.type == "metadata") b = true) := by
    intro b hb
    have hb2 := (List.mem_filter.mp hb).2
    simpa [bne] using hb2
  have h2 := find?_append_of_all _ _ _ hA hB
  have h3 : (l.filter (fun s => s.type == "metadata")).head? = some m := by
    rw [← h2]; exact h
  obtain ⟨x, xs, hAc⟩ :
      ∃ x xs, l.filter (fun s => s.type == "metadata") = x :: xs := by
    cases hc : l.filter (fun s => s.type == "metadata") with
    | nil => rw [hc] at h3; simp at h3
    | cons x xs => exact ⟨x, xs, rfl⟩
  show (l.filter (fun s => s.type == "metadata") ++
      l.filter (fun s => s.type != "metadata")).head? = some m
  rw [hAc] at h3 ⊢
  simpa using h3

theorem reorder_services_perm (l : List Service) : (_reorder_services l).Perm l := by
  have h := List.filter_append_perm (fun s : Service => s.type == "metadata") l
  simpa [_reorder_services, bne] using h

theorem mem_of_mem_reorder {l : List Service} {s : Service}
    (h : s ∈ _reorder_services l) : s ∈ l :=
  (reorder_services_perm l).mem_iff.mp h

theorem registerService_ok (env : Env) {s s' : Service}
    (h : registerService env s = .ok s') :
    s'.type = s.type ∧
    (s.type = "metadata" →
      ∃ attrs, s'.attributes = some attrs ∧
        attrs.curation = some { rating := 0, numVotes := 0, isListed := true }) := by
  unfold registerService registerServiceDates at h
  repeat' (split at h)
  all_goals (try simp_all)
  subst h
  exact ⟨rfl, _, rfl, rfl⟩

theorem registerServices_ok (env : Env) :
    ∀ {l l' : List Service}, registerServices env l = .ok l' →
    ∀ s' ∈ l', s'.type = "metadata" →
      ∃ attrs, s'.attributes = some attrs ∧
        attrs.curation = some { rating := 0, numVotes := 0, isListed := true } := by
  intro l
  induction l with
  | nil =>
    intro l' h s' hs' _
    simp [registerServices] at h
    subst h
    simp at hs'
  | cons a rest ih =>
    intro l' h s' hs' hm
    unfold registerServices at h
    split at h
    · simp at h
    · rename_i s1 hs1
      split at h
      · simp at h
      · rename_i rest1 hrest1
        have hl' : s1 :: rest1 = l' := by simpa using h
        subst hl'
        rcases List.mem_cons.mp hs' with rfl | hmem
        · have hso := registerService_ok env hs1
          exact hso.2 (by rw [← hso.1]; exact hm)
        · exact ih hrest1 s' hmem hm

theorem _get_metadata_some {l : List Service} {m : Service}
    (h : _get_metadata l = some m) : m.type = "metadata" ∧ m ∈ l := by
  unfold _get_metadata at h
  constructor
  · have h2 := List.find?_some h
    simpa using h2
  · exact List.mem_of_find?_eq_some h

theorem register_head_curation {env : Env} {svcs svcs1 : List Service} {m : Service}
    (h1 : registerServices env svcs = .ok svcs1)
    (h2 : _get_metadata (_reorder_services svcs1) = some m) :
    ∃ s0, (_reorder_services svcs1).head? = some s0 ∧ s0.type = "metadata" ∧
      ∃ attrs, s0.attributes = some attrs ∧
        attrs.curation = some { rating := 0, numVotes := 0, isListed := true } := by
  obtain ⟨hty, hmem⟩ := _get_metadata_some h2
  have hmem2 := mem_of_mem_reorder hmem
  obtain ⟨attrs, hattrs, hcur⟩ := registerServices_ok env h1 m hmem2 hty
  exact ⟨m, reorder_services_head _ _ h2, hty, attrs, hattrs, hcur⟩

theorem registerCore_ok (env : Env) (data : DDOPayload) (doc : Doc)
    (h : registerCore env data = .ok doc) :
    doc.updated = doc.created ∧
    (∃ c, data.created = some c ∧ format_timestamp c = some doc.created) ∧
    (data.accesssWhiteList = none → doc.accesssWhiteList = some (.aList [])) ∧
    (∃ s0, doc.service.head? = some s0 ∧ s0.type = "metadata" ∧
      ∃ attrs, s0.attributes = some attrs ∧
        attrs.curation = some { rating := 0, numVotes := 0, isListed := true }) ∧
    data.id = some doc.id := by
  unfold registerCore at h
  repeat' (split at h)
  all_goals (try simp_all)
  all_goals (repeat' (split at h))
  all_goals (try simp_all)
  all_goals (subst h)
  all_goals (first
    | exact ⟨rfl, rfl, rfl, register_head_curation (by assumption) (by assumption), rfl⟩
    | exact ⟨rfl, rfl, register_head_curation (by assumption) (by assumption), rfl⟩)

theorem registerPriceGate_error (env : Env) {m : MainMeta} {r : Resp}
    (h : registerPriceGate env m = .error r) :
    (∃ mg, r = .badRequest mg) ∨ r = .serverError := by
  unfold registerPriceGate at h
  repeat' (split at h)
  all_goals (try simp_all)
  all_goals (first
    | exact Or.inl ⟨_, h.symm⟩
    | exact Or.inr h.symm)

theorem registerService_error (env : Env) {s : Service} {r : Resp}
    (h : registerService env s = .error r) :
    (∃ m, r = .badRequest m) ∨ r = .serverError := by
  unfold registerService registerServiceDates at h
  repeat' (split at h)
  all_goals (try simp_all)
  all_goals (first
    | exact Or.inl ⟨_, h.symm⟩
    | exact Or.inr h.symm
    | (subst h; exact registerPriceGate_error env (by assumption))
    | exact registerPriceGate_error env (by assumption))

theorem registerServices_error (env : Env) :
    ∀ {l : List Service} {r : Resp}, registerServices env l = .error r →
    (∃ m, r = .badRequest m) ∨ r = .serverError := by
  intro l
  induction l with
  | nil => intro r h; simp [registerServices] at h
  | cons a rest ih =>
    intro r h
    unfold registerServices at h
    split at h
    · rename_i e he
      have h2 : e = r := by simpa using h
      subst h2
      exact registerService_error env he
    · split at h
      · rename_i e he
        have h2 : e = r := by simpa using h
        subst h2
        exact ih he
      · simp at h

theorem registerCore_error (env : Env) (data : DDOPayload) {r : Resp}
    (h : registerCore env data = .error r) :
    (∃ m, r = .badRequest m) ∨ r = .serverError := by
  unfold registerCore at h
  repeat' (split at h)
  all_goals (try simp_all)
  all_goals (repeat' (split at h))
  all_goals (try simp_all)
  all_goals (first
    | exact Or.inl ⟨_, h.symm⟩
    | exact Or.inr h.symm
    | (subst h; exact registerServices_error env (by assumption))
    | exact registerServices_error env (by assumption))

/-! # Claim theorems -/

/-- C5: `_reorder_services` returns a stable partition of the service list:
the `type == "metadata"` entries come first, in their original relative order,
followed by all other entries in their original relative order, and — being a
permutation of the input — no entry is added, removed or modified. -/
theorem C5_reorder_services_stable_partition (l : List Service) :
    (_reorder_services l).Perm l ∧
    _reorder_services l =
      l.filter (fun s => s.type == "metadata") ++
        l.filter (fun s => s.type != "metadata") :=
  ⟨reorder_services_perm l, rfl⟩

/-- C2: whenever a Create (`register`) request succeeds (201 with the stored
record), the stored document has a metadata-typed service at index 0 of its
`service` list whose curation is `{rating: 0.0, numVotes: 0, isListed: true}`,
has `updated` equal to its `created`, which is the normalized `created` of the
payload, has `accesssWhiteList = []` when the payload supplies no such field,
and is persisted in the store under the payload's id. -/
theorem C2_create_stored_document (env : Env) (data : DDOPayload)
    (store store' : Store) (doc : Doc)
    (h : register env data store = (Resp.created doc, store')) :
    (∃ s0, doc.service.head? = some s0 ∧ s0.type = "metadata" ∧
      ∃ attrs, s0.attributes = some attrs ∧
        attrs.curation = some { rating := 0, numVotes := 0, isListed := true }) ∧
    doc.updated = doc.created ∧
    (∃ c, data.created = some c ∧ format_timestamp c = some doc.created) ∧
    (data.accesssWhiteList = none → doc.accesssWhiteList = some (.aList [])) ∧
    data.id = some doc.id ∧ store'.get doc.id = some doc := by
  unfold register at h
  split at h
  · rename_i r hr
    have hshape := registerCore_error env data hr
    simp only [Prod.mk.injEq] at h
    rcases hshape with ⟨m, rfl⟩ | rfl <;> simp_all
  · rename_i rec hrec
    simp only [Prod.mk.injEq, Resp.created.injEq] at h
    obtain ⟨rfl, rfl⟩ := h
    obtain ⟨hu, hc, hawl, hhead, hid⟩ := registerCore_ok env data _ hrec
    exact ⟨hhead, hu, hc, hawl, hid, Store.get_put _ _ _⟩

/-- Witness for C2: the conclusion instantiated at a concrete valid payload. -/
theorem C2_create_stored_document_witness :
    (∃ s0, createdDoc.service.head? = some s0 ∧ s0.type = "metadata" ∧
      ∃ attrs, s0.attributes = some attrs ∧
        attrs.curation = some { rating := 0, numVotes := 0, isListed := true }) ∧
    createdDoc.updated = createdDoc.created ∧
    (∃ c, samplePayload.created = some c ∧
      format_timestamp c = some createdDoc.created) ∧
    (samplePayload.accesssWhiteList = none →
      createdDoc.accesssWhiteList = some (.aList [])) ∧
    samplePayload.id = some createdDoc.id ∧
    Store.get [("did:op:1", createdDoc)] createdDoc.id = some createdDoc :=
  C2_create_stored_document envOwner samplePayload [] [("did:op:1", createdDoc)]
    createdDoc (by rfl)

theorem normalizeMainDates_error {s : Service} {r : Resp}
    (h : normalizeMainDates s = .error r) : r = .serverError := by
  unfold normalizeMainDates at h
  repeat' (split at h)
  all_goals (try simp_all)
  all_goals exact h.symm

theorem updateLastMetaE_error :
    ∀ {l : List Service} {r : Resp}, updateLastMetaE l = .error r →
    r = .serverError := by
  intro l
  induction l with
  | nil => intro r h; simp [updateLastMetaE] at h
  | cons a rest ih =>
    intro r h
    unfold updateLastMetaE at h
    repeat' (split at h)
    all_goals (try simp_all)
    all_goals (first
      | exact ih h
      | (subst h; exact ih (by assumption))
      | (subst h; exact normalizeMainDates_error (by assumption))
      | exact normalizeMainDates_error (by assumption))

theorem updatePriceCheck_error (env : Env) :
    ∀ {l : List Service} {r : Resp}, updatePriceCheck env l = .error r →
    (∃ m, r = .badRequest m) ∨ r = .serverError := by
  intro l
  induction l with
  | nil => intro r h; simp [updatePriceCheck] at h
  | cons a rest ih =>
    intro r h
    unfold updatePriceCheck at h
    repeat' (split at h)
    all_goals (try simp_all)
    all_goals (first
      | exact Or.inl ⟨_, h.symm⟩
      | exact Or.inr h.symm
      | exact ih h
      | (subst h; exact ih (by assumption)))

theorem updateCore_error (env : Env) (data : DDOPayload) {r : Resp}
    (h : updateCore env data = .error r) :
    (∃ m, r = .badRequest m) ∨ r = .serverError := by
  unfold updateCore at h
  repeat' (split at h)
  all_goals (try simp_all)
  all_goals (repeat' (split at h))
  all_goals (try simp_all)
  all_goals (first
    | exact Or.inl ⟨_, h.symm⟩
    | exact Or.inr h.symm
    | (subst h; exact Or.inr (updateLastMetaE_error (by assumption)))
    | exact Or.inr (updateLastMetaE_error (by assumption)))

theorem updateCore_ok (env : Env) (data : DDOPayload) (doc : Doc)
    (h : updateCore env data = .ok doc) :
    doc.updated = doc.created ∧
    (∃ c, data.created = some c ∧ format_timestamp c = some doc.created) ∧
    data.id = some doc.id ∧
    doc.accesssWhiteList = data.accesssWhiteList := by
  unfold updateCore at h
  repeat' (split at h)
  all_goals (try simp_all)
  all_goals (repeat' (split at h))
  all_goals (try simp_all)
  all_goals (subst h)
  all_goals exact ⟨rfl, rfl, rfl, rfl⟩

/-- C10: whenever a FullUpdate (`update`) of a Registered document succeeds
(200), the stored document's `updated` field is the normalized `created`
timestamp of the submitted payload (and equals its stored `created`) — it does
not depend on the clock or on the previously stored `updated`, so a successful
FullUpdate can move `updated` backwards in time (see the witness). -/
theorem C10_full_update_updated_from_payload (env : Env) (did : String)
    (data : DDOPayload) (store store' : Store) (rec0 doc : Doc)
    (hreg : store.get did = some rec0)
    (h : update env did data store = (Resp.okDoc doc, store')) :
    (∃ c, data.created = some c ∧ format_timestamp c = some doc.updated) ∧
    doc.updated = doc.created ∧
    store'.get did = some doc := by
  unfold update at h
  split at h
  · simp at h
  · split at h
    · rename_i r hr
      have hshape := updateCore_error env data hr
      simp only [Prod.mk.injEq] at h
      rcases hshape with ⟨m, rfl⟩ | rfl <;> simp_all
    · rename_i rec hrec
      rw [hreg] at h
      split at h
      · rename_i hnone
        exact absurd hnone (by simp)
      · split at h
        · rename_i r hr
          have hshape := updatePriceCheck_error env hr
          simp only [Prod.mk.injEq] at h
          rcases hshape with ⟨m, rfl⟩ | rfl <;> simp_all
        · simp only [Prod.mk.injEq, Resp.okDoc.injEq] at h
          obtain ⟨rfl, rfl⟩ := h
          obtain ⟨hu, hc, -, -⟩ := updateCore_ok env data _ hrec
          refine ⟨?_, hu, Store.get_put _ _ _⟩
          obtain ⟨c, hc1, hc2⟩ := hc
          exact ⟨c, hc1, by rw [hc2, hu]⟩

/-- Witness for C10: the FullUpdate of the sample payload over a document whose
stored `updated` is `2021-01-01T00:00:00Z` stores `updated =
2020-01-01T00:00:00Z` — strictly earlier, and different from the clock. -/
theorem C10_full_update_updated_from_payload_witness :
    ((∃ c, samplePayload.created = some c ∧
        format_timestamp c = some updatedDoc.updated) ∧
      updatedDoc.updated = updatedDoc.created ∧
      Store.get [("did:op:1", updatedDoc)] "did:op:1" = some updatedDoc) ∧
    updatedDoc.updated = "2020-01-01T00:00:00Z" ∧
    sampleDoc.updated = "2021-01-01T00:00:00Z" ∧
    updatedDoc.updated ≠ envOwner.now :=
  ⟨C10_full_update_updated_from_payload envOwner "did:op:1" samplePayload
      [("did:op:1", sampleDoc)] [("did:op:1", updatedDoc)] sampleDoc updatedDoc
      (by rfl) (by rfl),
    rfl, rfl, by decide⟩

/-- C1 (amended): a FullUpdate (`update`) request is authorized only by the
local-caller check on the request's remote address: when that address is
neither `127.0.0.1` nor `localhost`, the response is 401 (`You have no
rights`) and the store is untouched; the submitted signature and
`authorizeAsOwner` are never consulted. -/
theorem C1_update_gated_by_remote_addr (env : Env) (did : String)
    (data : DDOPayload) (store : Store)
    (h1 : env.remoteAddr ≠ "127.0.0.1") (h2 : env.remoteAddr ≠ "localhost") :
    update env did data store = (Resp.unauthorized noRightsMsg, store) := by
  unfold update
  rw [if_pos ⟨h1, h2⟩]

/-- Witness for C1 (amended) at a concrete non-local request. -/
theorem C1_update_gated_by_remote_addr_witness :
    update envNonLocal "did:op:1" samplePayload [("did:op:1", sampleDoc)]
      = (Resp.unauthorized noRightsMsg, [("did:op:1", sampleDoc)]) :=
  C1_update_gated_by_remote_addr envNonLocal "did:op:1" samplePayload
    [("did:op:1", sampleDoc)] (by decide) (by decide)

/-- C1 counterexample: a FullUpdate submitted from the local address succeeds
with 200 and mutates the store although `authorizeAsOwner` rejects every
submitted `(updated, signature)` pair — the recovered signer is `0xMallory`,
not the document owner `0xOwner`. -/
theorem C1_counterexample :
    _can_update_did envAttacker sampleDoc "2021-01-01T00:00:00Z" "sig" = false ∧
    update envAttacker "did:op:1" samplePayload [("did:op:1", sampleDoc)]
      = (Resp.okDoc updatedDoc, [("did:op:1", updatedDoc)]) ∧
    [("did:op:1", updatedDoc)] ≠ [("did:op:1", sampleDoc)] :=
  ⟨by decide, by rfl, by decide⟩

/-- C3 counterexample: Create (`register`) stores a payload-supplied
`accesssWhiteList` verbatim, so the stored document of a reachable state
contains the address `0xDup` twice — the at-most-once invariant fails. -/
theorem C3_counterexample :
    register envOwner dupPayload [] = (Resp.created dupDoc, [("did:op:1", dupDoc)]) ∧
    dupDoc.accesssWhiteList = some (.aList ["0xDup", "0xDup"]) ∧
    ¬ (["0xDup", "0xDup"] : List String).Nodup :=
  ⟨by rfl, rfl, by decide⟩

/-- C3 (amended): WhitelistAdd (`add_access_white_list`) preserves whitelist
distinctness — it refuses an already-present address with a 400 Conflict, so
whenever the stored whitelist of the target document has no duplicate, the
whitelist stored under that DID after the request (whatever its outcome) still
has none.  Create and FullUpdate, by contrast, store the payload's
`accesssWhiteList` verbatim, so duplicates can enter (counterexample). -/
theorem C3_whitelist_add_preserves_nodup (env : Env) (did : String)
    (data : WhitelistReq) (store store' : Store) (rec : Doc) (wl : List String)
    (r : Resp)
    (hget : store.get did = some rec)
    (hwl : rec.accesssWhiteList = some (.aList wl))
    (hnd : wl.Nodup)
    (h : add_access_white_list env did data store = (r, store')) :
    ∀ rec' wl', store'.get did = some rec' →
      rec'.accesssWhiteList = some (.aList wl') → wl'.Nodup := by
  unfold add_access_white_list at h
  repeat' (split at h)
  all_goals simp only [Prod.mk.injEq] at h
  all_goals obtain ⟨hr, hs⟩ := h
  all_goals subst hs
  all_goals intro rec' wl' hg hw
  all_goals (try (rw [hget] at hg; cases Option.some.inj hg;
                  rw [hwl] at hw;
                  (obtain rfl : wl = wl' := by simpa using hw);
                  exact hnd))
  rw [Store.get_put] at hg
  cases Option.some.inj hg
  simp_all [List.count_eq_zero]
  subst hw
  simp [List.nodup_append, hnd]
  simp_all [List.disjoint_singleton]

/-- Witness for C3 (amended): adding `0xNew` to the empty whitelist of
`sampleDoc` yields a duplicate-free whitelist. -/
theorem C3_whitelist_add_preserves_nodup_witness :
    whitelistedDoc.accesssWhiteList = some (.aList ["0xNew"]) ∧
    (["0xNew"] : List String).Nodup :=
  ⟨rfl,
    C3_whitelist_add_preserves_nodup envOwner "did:op:1" addReq
      [("did:op:1", sampleDoc)] [("did:op:1", whitelistedDoc)] sampleDoc []
      (Resp.ok "Address added.") (by rfl) (by rfl) (by decide) (by rfl)
      whitelistedDoc ["0xNew"] (by rfl) (by rfl)⟩

/-- C7: on a Registered document whose whitelist does not contain `addr`, an
authorized WhitelistAdd of `addr` succeeds and appends it; a following
authorized WhitelistRemove of `addr` succeeds and restores the original
whitelist; and a second WhitelistAdd of the now-present address instead
returns the 400 Conflict (`Address already in list`) and leaves the store
unchanged. -/
theorem C7_whitelist_roundtrip_and_conflict (env : Env) (did : String)
    (sig upd addr : String) (store : Store) (rec : Doc) (wl : List String)
    (hget : store.get did = some rec)
    (hwl : rec.accesssWhiteList = some (.aList wl))
    (hnotin : wl.count addr = 0)
    (haddr : env.isAddress addr = true)
    (hauth : _can_update_did env rec upd sig = true) :
    ∃ rec1 rec2 : Doc,
      add_access_white_list env did ⟨some sig, some upd, some addr⟩ store
        = (.ok "Address added.", store.put did rec1) ∧
      rec1.accesssWhiteList = some (.aList (wl ++ [addr])) ∧
      delete_access_white_list env did ⟨some sig, some upd, some addr⟩
          (store.put did rec1)
        = (.ok "Address removed.", (store.put did rec1).put did rec2) ∧
      rec2.accesssWhiteList = some (.aList wl) ∧
      add_access_white_list env did ⟨some sig, some upd, some addr⟩
          (store.put did rec1)
        = (.badRequest "Address already in list", store.put did rec1) := by
  have hmem : addr ∉ wl := List.count_eq_zero.mp hnotin
  have herase : (wl ++ [addr]).erase addr = wl := by
    rw [List.erase_append_right _ hmem]
    simp
  have hauth1 : _can_update_did env
      { rec with
        accesssWhiteList := some (.aList (wl ++ [addr])),
        updated := env.now } upd sig = true := hauth
  refine ⟨{ rec with
            accesssWhiteList := some (.aList (wl ++ [addr])),
            updated := env.now },
          { rec with
            accesssWhiteList := some (.aList wl),
            updated := env.now },
          ?_, rfl, ?_, rfl, ?_⟩
  · unfold add_access_white_list
    simp [haddr, hget, hauth, hwl, hnotin]
  · unfold delete_access_white_list
    simp [haddr, Store.get_put, hauth1, List.count_append, hnotin, herase]
  · unfold add_access_white_list
    simp [haddr, Store.get_put, hauth1, List.count_append, hnotin]

/-- Witness for C7: round trip and idempotent-rejection on `sampleDoc` (empty
whitelist) with address `0xNew`. -/
theorem C7_whitelist_roundtrip_and_conflict_witness :
    ∃ rec1 rec2 : Doc,
      add_access_white_list envOwner "did:op:1" addReq [("did:op:1", sampleDoc)]
        = (.ok "Address added.",
           Store.put [("did:op:1", sampleDoc)] "did:op:1" rec1) ∧
      rec1.accesssWhiteList = some (.aList ["0xNew"]) ∧
      delete_access_white_list envOwner "did:op:1" addReq
          (Store.put [("did:op:1", sampleDoc)] "did:op:1" rec1)
        = (.ok "Address removed.",
           (Store.put [("did:op:1", sampleDoc)] "did:op:1" rec1).put "did:op:1" rec2) ∧
      rec2.accesssWhiteList = some (.aList []) ∧
      add_access_white_list envOwner "did:op:1" addReq
          (Store.put [("did:op:1", sampleDoc)] "did:op:1" rec1)
        = (.badRequest "Address already in list",
           Store.put [("did:op:1", sampleDoc)] "did:op:1" rec1) :=
  C7_whitelist_roundtrip_and_conflict envOwner "did:op:1" "sig"
    "2021-01-01T00:00:00Z" "0xNew" [("did:op:1", sampleDoc)] sampleDoc []
    (by rfl) (by rfl) (by rfl) (by decide) (by decide)

/-- C6: in an authorized TransferOwnership (`transfer_ownership`) request on a
Registered document, a syntactically invalid `newOwner` is rejected (400)
without mutating the store; a `newOwner` equal to the current owner
(case-insensitively, `compare_eth_addresses`) is rejected (400) without
mutating the store; otherwise the operation sets `publicKey[0].owner` to
`newOwner`, sets `updated` to the current time, and persists. -/
theorem C6_transfer_ownership (env : Env) (did : String)
    (sig upd newOwner : String) (store : Store) :
    (env.isAddress newOwner = false →
      transfer_ownership env did ⟨some sig, some upd, some newOwner⟩ store
        = (.badRequest "New owner is not a valid address", store)) ∧
    (∀ rec pk0 tl,
      env.isAddress newOwner = true →
      store.get did = some rec →
      _can_update_did env rec upd sig = true →
      rec.publicKey = pk0 :: tl →
      ((compare_eth_addresses pk0.owner newOwner = true →
        transfer_ownership env did ⟨some sig, some upd, some newOwner⟩ store
          = (.badRequest "New owner must be different than owner", store)) ∧
       (compare_eth_addresses pk0.owner newOwner = false →
        transfer_ownership env did ⟨some sig, some upd, some newOwner⟩ store
          = (.ok "Asset successfully transferred",
             store.put did { rec with
               publicKey := { owner := newOwner } :: tl,
               updated := env.now })))) := by
  constructor
  · intro h
    unfold transfer_ownership
    simp [h]
  · intro rec pk0 tl ha hget hauth hpk
    constructor <;> intro hcmp <;> unfold transfer_ownership <;>
      simp [ha, hget, hauth, hpk, hcmp]

/-- Witness for C6: transferring `sampleDoc` to `0xNewOwner` succeeds and
stores the new owner with `updated` stamped by the clock. -/
theorem C6_transfer_ownership_witness :
    transfer_ownership envOwner "did:op:1"
        ⟨some "sig", some "2021-01-01T00:00:00Z", some "0xNewOwner"⟩
        [("did:op:1", sampleDoc)]
      = (.ok "Asset successfully transferred",
         Store.put [("did:op:1", sampleDoc)] "did:op:1" transferredDoc) :=
  ((C6_transfer_ownership envOwner "did:op:1" "sig" "2021-01-01T00:00:00Z"
      "0xNewOwner" [("did:op:1", sampleDoc)]).2 sampleDoc ⟨"0xOwner"⟩ []
      (by decide) (by rfl) (by decide) (by rfl)).2 (by decide)


theorem applyRatingService_ok (r : Rat) (nv : Int) {s s' : Service}
    (h : applyRatingService r nv s = .ok s') :
    s'.type = s.type ∧
    (s.type = "metadata" →
      ∃ attrs cur, s'.attributes = some attrs ∧ attrs.curation = some cur ∧
        cur.numVotes = nv ∧ cur.rating = r) := by
  unfold applyRatingService at h
  repeat' (split at h)
  all_goals (try simp_all)
  all_goals (subst h)
  all_goals (first
    | exact ⟨rfl, fun _ => ⟨_, _, rfl, rfl, rfl, rfl⟩⟩
    | exact ⟨rfl, _, _, rfl, rfl, rfl, rfl⟩
    | exact ⟨rfl, _, rfl, _, rfl, rfl, rfl⟩)

theorem applyRatingService_error (r : Rat) (nv : Int) {s : Service} {e : Resp}
    (h : applyRatingService r nv s = .error e) : e = .serverError := by
  unfold applyRatingService at h
  repeat' (split at h)
  all_goals (try simp_all)
  all_goals exact h.symm

theorem applyRating_error (r : Rat) (nv : Int) :
    ∀ {l : List Service} {e : Resp}, applyRating r nv l = .error e →
    e = .serverError := by
  intro l
  induction l with
  | nil => intro e h; simp [applyRating] at h
  | cons a rest ih =>
    intro e h
    unfold applyRating at h
    split at h
    · rename_i e1 he1
      have h2 : e1 = e := by simpa using h
      subst h2
      exact applyRatingService_error r nv he1
    · split at h
      · rename_i e1 he1
        have h2 : e1 = e := by simpa using h
        subst h2
        exact ih he1
      · simp at h

theorem applyRating_ok (r : Rat) (nv : Int) :
    ∀ {l l' : List Service}, applyRating r nv l = .ok l' →
    ∀ s' ∈ l', s'.type = "metadata" →
      ∃ attrs cur, s'.attributes = some attrs ∧ attrs.curation = some cur ∧
        cur.numVotes = nv ∧ cur.rating = r := by
  intro l
  induction l with
  | nil =>
    intro l' h s' hs' _
    simp [applyRating] at h
    subst h
    simp at hs'
  | cons a rest ih =>
    intro l' h s' hs' hm
    unfold applyRating at h
    split at h
    · simp at h
    · rename_i s1 hs1
      split at h
      · simp at h
      · rename_i rest1 hrest1
        have hl' : s1 :: rest1 = l' := by simpa using h
        subst hl'
        rcases List.mem_cons.mp hs' with rfl | hmem
        · have hso := applyRatingService_ok r nv hs1
          exact hso.2 (by rw [← hso.1]; exact hm)
        · exact ih hrest1 s' hmem hm

/-- C9 (amended): a successful RateUpdate (`update_ratings`) stores exactly
the submitted `numVotes` in every metadata service's curation — the new value
is not clamped to the previously stored one, so the stored numVotes can
decrease through a RateUpdate (see the counterexample). -/
theorem C9_rate_update_stores_submitted_numvotes (env : Env) (did : String)
    (data : RatingReq) (store store' : Store) (rec : Doc) (nv : Int)
    (msg : String)
    (hnv : data.numVotes = some (.int nv))
    (hget : store.get did = some rec)
    (h : update_ratings env did data store = (.ok msg, store')) :
    ∀ rec', store'.get did = some rec' →
      ∀ s ∈ rec'.service, s.type = "metadata" →
        ∃ attrs cur, s.attributes = some attrs ∧ attrs.curation = some cur ∧
          cur.numVotes = nv := by
  unfold update_ratings at h
  repeat' (split at h)
  all_goals simp only [Prod.mk.injEq] at h
  all_goals (try simp_all)
  all_goals (first
    | (rename_i heqap
       exact absurd (applyRating_error _ _ heqap) (by simp))
    | (obtain ⟨hr, hs⟩ := h
       subst hs
       intro rec' hg s hmem hty
       rw [Store.get_put] at hg
       cases Option.some.inj hg
       rename_i heqap
       obtain ⟨attrs, cur, h1, h2, h3, -⟩ :=
         applyRating_ok _ _ heqap s hmem hty
       exact ⟨attrs, h1, cur, h2, h3⟩))

/-- C9 counterexample: an authorized RateUpdate submitting `numVotes = 0`
against a document whose stored metadata curation has `numVotes = 5` succeeds
and stores `numVotes = 0 < 5` — stored numVotes decreased through an operation
other than FullUpdate. -/
theorem C9_counterexample :
    update_ratings envUpdater "did:op:1"
        ⟨some "sig", some "2021-01-01T00:00:00Z", some (.int 1), some (.int 0)⟩
        [("did:op:1", sampleDoc)]
      = (.ok "Rating successfully updated", [("did:op:1", ratedDoc)]) ∧
    (Option.bind (Option.bind (_get_metadata sampleDoc.service)
        Service.attributes) Attributes.curation).map Curation.numVotes
      = some 5 ∧
    (Option.bind (Option.bind (_get_metadata ratedDoc.service)
        Service.attributes) Attributes.curation).map Curation.numVotes
      = some 0 ∧
    (0 : Int) < 5 :=
  ⟨by rfl, by rfl, by rfl, by decide⟩

/-- Witness for C9 (amended): the concrete RateUpdate of the counterexample
input, through the theorem. -/
theorem C9_rate_update_stores_submitted_numvotes_witness :
    ∃ attrs cur, ratedMeta.attributes = some attrs ∧
      attrs.curation = some cur ∧ cur.numVotes = 0 :=
  C9_rate_update_stores_submitted_numvotes envUpdater "did:op:1"
    ⟨some "sig", some "2021-01-01T00:00:00Z", some (.int 1), some (.int 0)⟩
    [("did:op:1", sampleDoc)] [("did:op:1", ratedDoc)] sampleDoc 0
    "Rating successfully updated" (by rfl) (by rfl) (by rfl)
    ratedDoc (by rfl) ratedMeta (List.mem_cons_self _ _) (by rfl)

